import Mathlib

/-!
Shallow embedding of `src/turtle_adventure.py` (Turtle Adventure game).

Coordinates and speeds are embedded as rationals (`ℚ`) for the components
whose arithmetic is field arithmetic with comparisons only, and as reals
(`ℝ`) for the two components that normalise a vector with a square root
(`Player.update` via turtle heading/forward, `CrossEnemy` movement states).
Python's `random.randint` and `random.choice` are modelled by explicit
oracle parameters; `random.randint(a, b)` is modelled by `pyRandint`,
which maps an arbitrary natural seed into the inclusive range `[a, b]`.
-/

/-- Session state of `TurtleAdventureGame` as far as the game-over paths
touch it: `running` is the tick loop state (set to `false` by `stop()`),
`banners` the list of centered texts created on the canvas by
`canvas.create_text` in `game_over_win` / `game_over_lose`. -/
structure GameS where
  running : Bool
  banners : List String
  deriving DecidableEq, Repr

/-- Modelled from the spec: `gamelib.Game.stop` (the file `gamelib.py` is
not under `src/`); per the spec the loop "must honor [a terminal
transition] by halting further ticks", so `stop` clears `running` and
does nothing else. -/
def GameS.stop (g : GameS) : GameS :=
  { g with running := false }

/-- Embedding of `TurtleAdventureGame.game_over_win` (lines 669-679):
`self.stop()` followed by `canvas.create_text(..., text="You Win", ...)`.
There is no guard on any terminal flag. -/
def gameOverWin (g : GameS) : GameS :=
  { g.stop with banners := g.banners ++ ["You Win"] }

/-- Embedding of `TurtleAdventureGame.game_over_lose` (lines 681-691):
`self.stop()` followed by `canvas.create_text(..., text="You Lose", ...)`.
There is no guard on any terminal flag. -/
def gameOverLose (g : GameS) : GameS :=
  { g.stop with banners := g.banners ++ ["You Lose"] }

/-- Embedding of `Enemy.hits_player` (lines 252-260): strict inequalities
on both axes against the square of side `size` centered at `(ex, ey)`;
`(px, py)` is the player position. All five enemy variants inherit this
method unchanged. -/
def hitsPlayer (ex ey size px py : ℚ) : Bool :=
  decide (ex - size / 2 < px ∧ px < ex + size / 2) &&
  decide (ey - size / 2 < py ∧ py < ey + size / 2)

/-- Embedding of `Home.contains` (lines 128-134): non-strict (closed)
inequalities on both axes against the square of side `size` centered at
`(hx, hy)`. -/
def homeContains (hx hy size x y : ℚ) : Bool :=
  decide (hx - size / 2 ≤ x ∧ x ≤ hx + size / 2) &&
  decide (hy - size / 2 ≤ y ∧ y ≤ hy + size / 2)

/-- Model of Python's `random.randint(a, b)`: an arbitrary seed `r` is
mapped into the inclusive range `[a, b]` (for `a ≤ b`). -/
def pyRandint (a b : ℤ) (r : ℕ) : ℤ :=
  a + (r : ℤ) % (b - a + 1)

theorem pyRandint_mem (a b : ℤ) (r : ℕ) (hab : a ≤ b) :
    a ≤ pyRandint a b r ∧ pyRandint a b r ≤ b := by
  have hpos : 0 < b - a + 1 := by omega
  have h0 : 0 ≤ (r : ℤ) % (b - a + 1) :=
    Int.emod_nonneg _ (by omega)
  have h1 : (r : ℤ) % (b - a + 1) < b - a + 1 :=
    Int.emod_lt_of_pos _ hpos
  constructor
  · simp only [pyRandint]; omega
  · simp only [pyRandint]; omega

/-! ## EnemyGenerator spawn counts -/

/-- Embedding of `EnemyGenerator.create_random` (lines 591-597): the loop
`for _ in range(2*level - 1)` runs `max 0 (2*level - 1)` times, i.e.
`(2*level - 1).toNat` times. -/
def createRandomCount (level : ℤ) : ℕ :=
  (2 * level - 1).toNat

/-- Embedding of `EnemyGenerator.create_chasing` (lines 599-607): the
parameter `num` defaults to `None`; `if not num: num = self.__level`
replaces both `None` and a zero argument by the level; then the loop runs
`math.ceil(num / 3)` times (clamped at zero by `range`). -/
def createChasingCount (level : ℤ) (num : Option ℚ) : ℕ :=
  let n : ℚ :=
    match num with
    | none => (level : ℚ)
    | some q => if q = 0 then (level : ℚ) else q
  (Int.ceil (n / 3)).toNat

/-- Embedding of `EnemyGenerator.create_fencing` (lines 609-615): the loop
runs `math.ceil(level / 2)` times (clamped at zero by `range`). -/
def createFencingCount (level : ℤ) : ℕ :=
  (Int.ceil ((level : ℚ) / 2)).toNat

/-- Embedding of `EnemyGenerator.create_cross` (lines 617-623): the loop
runs `3*level - 2` times (clamped at zero by `range`). -/
def createCrossCount (level : ℤ) : ℕ :=
  (3 * level - 2).toNat

/-- Embedding of `EnemyGenerator.create_enemy` (lines 582-589): the
baseline wave is the four category counts in order (random-walk, chasing,
fencing, cross); `create_chasing` is called with no argument. -/
def createEnemyCounts (level : ℤ) : ℕ × ℕ × ℕ × ℕ :=
  (createRandomCount level, createChasingCount level none,
   createFencingCount level, createCrossCount level)

/-- One scheduled spawn callback of the generator. -/
inductive SpawnEvent where
  | baseline : SpawnEvent
  | subwave : ℕ → SpawnEvent
  deriving DecidableEq, Repr

/-- Size of the sub-wave spawned by each 10-second callback: the
constructor passes `level/4` (Python float division, exact here) as the
`num` argument of `create_chasing`. -/
def subWaveCount (level : ℤ) : ℕ :=
  createChasingCount level (some ((level : ℚ) / 4))

/-- Embedding of `EnemyGenerator.__init__` (lines 561-566): one callback
after 100 ms running `create_enemy`, and three callbacks after 10000 ms
each running `create_chasing(level/4)`. -/
def generatorSchedule (level : ℤ) : List (ℕ × SpawnEvent) :=
  (100, SpawnEvent.baseline) ::
    List.replicate 3 (10000, SpawnEvent.subwave (subWaveCount level))

/-! ## DemoEnemy (patrol / axis-bounce) -/

/-- The x-axis direction state of `DemoEnemy`: which of
`state_move_right` / `state_move_left` is currently bound. -/
inductive XDir where
  | moveRight : XDir
  | moveLeft : XDir
  deriving DecidableEq, Repr

/-- The y-axis direction state of `DemoEnemy`: which of
`state_move_down` / `state_move_up` is currently bound. -/
inductive YDir where
  | moveDown : YDir
  | moveUp : YDir
  deriving DecidableEq, Repr

/-- State of a `DemoEnemy` (lines 263-329): position, shared speed, and
the two independent per-axis direction states. -/
structure DemoS where
  x : ℚ
  y : ℚ
  speed : ℚ
  xd : XDir
  yd : YDir
  deriving DecidableEq, Repr

/-- Embedding of `DemoEnemy.check_x_border` (lines 321-324): true when
the (already moved) x coordinate lies outside `[0, width]`. -/
def checkXBorder (width x : ℚ) : Bool :=
  decide (x < 0) || decide (x > width)

/-- Embedding of `DemoEnemy.check_y_border` (lines 326-329). -/
def checkYBorder (height y : ℚ) : Bool :=
  decide (y < 0) || decide (y > height)

/-- The multiplier drawn by `random.choice([1, 1.1])`, with the draw
given as a Boolean oracle. -/
def bounceFactor (c : Bool) : ℚ :=
  if c then 11 / 10 else 1

/-- Embedding of `DemoEnemy.state_move_right` / `state_move_left`
(lines 297-307), i.e. one call of the currently bound x-state: move by
`speed` in the current x direction; if the moved position is out of the
horizontal screen bounds, multiply the speed by `random.choice([1,1.1])`
(oracle `c`) and rebind the x-state to the opposite direction. -/
def demoStepX (width : ℚ) (c : Bool) (s : DemoS) : DemoS :=
  match s.xd with
  | XDir.moveRight =>
    let s1 := { s with x := s.x + s.speed }
    if checkXBorder width s1.x then
      { s1 with speed := s1.speed * bounceFactor c, xd := XDir.moveLeft }
    else s1
  | XDir.moveLeft =>
    let s1 := { s with x := s.x - s.speed }
    if checkXBorder width s1.x then
      { s1 with speed := s1.speed * bounceFactor c, xd := XDir.moveRight }
    else s1

/-- Embedding of `DemoEnemy.state_move_down` / `state_move_up`
(lines 309-319), i.e. one call of the currently bound y-state. -/
def demoStepY (height : ℚ) (c : Bool) (s : DemoS) : DemoS :=
  match s.yd with
  | YDir.moveDown =>
    let s1 := { s with y := s.y + s.speed }
    if checkYBorder height s1.y then
      { s1 with speed := s1.speed * bounceFactor c, yd := YDir.moveUp }
    else s1
  | YDir.moveUp =>
    let s1 := { s with y := s.y - s.speed }
    if checkYBorder height s1.y then
      { s1 with speed := s1.speed * bounceFactor c, yd := YDir.moveDown }
    else s1

/-- Embedding of `DemoEnemy.update` (lines 281-285) without the collision
branch: `self.__x_state()` then `self.__y_state()`; `cx`, `cy` are the
oracles for the (at most two) `random.choice` draws. -/
def demoMove (width height : ℚ) (cx cy : Bool) (s : DemoS) : DemoS :=
  demoStepY height cy (demoStepX width cx s)

/-- Embedding of the full `DemoEnemy.update` (lines 281-285): move both
axes, then `if self.hits_player(): self.game.game_over_lose()`; `(px,py)`
is the player position and `size` the enemy size. There is no check of
any terminal flag before moving. -/
def demoUpdate (width height size px py : ℚ) (cx cy : Bool)
    (g : GameS) (s : DemoS) : GameS × DemoS :=
  let s1 := demoMove width height cx cy s
  if hitsPlayer s1.x s1.y size px py then (gameOverLose g, s1) else (g, s1)

/-- Iterated `DemoEnemy.update` movement over a list of oracle pairs. -/
def demoRun (width height : ℚ) (cs : List (Bool × Bool)) (s : DemoS) : DemoS :=
  cs.foldl (fun t c => demoMove width height c.1 c.2 t) s

/-! ## RandomWalkEnemy -/

/-- State of a `RandomWalkEnemy` (lines 331-383): position, speed, and
the stored random destination (set by `gen_dest`, hence integral). -/
structure RWs where
  x : ℚ
  y : ℚ
  speed : ℚ
  dx : ℚ
  dy : ℚ
  deriving DecidableEq, Repr

/-- Embedding of `RandomWalkEnemy.gen_dest` (lines 342-347): a fresh
destination `(randint(0, width), randint(0, height))`, the two draws
given by seeds `rx`, `ry`. -/
def genDest (width height : ℤ) (rx ry : ℕ) : ℤ × ℤ :=
  (pyRandint 0 width rx, pyRandint 0 height ry)

/-- Embedding of `RandomWalkEnemy.update_x` (lines 349-353). -/
def rwUpdateX (s : RWs) : RWs :=
  if s.dx > s.x then { s with x := s.x + min s.speed (s.dx - s.x) }
  else { s with x := s.x - min s.speed (s.x - s.dx) }

/-- Embedding of `RandomWalkEnemy.update_y` (lines 355-359). -/
def rwUpdateY (s : RWs) : RWs :=
  if s.dy > s.y then { s with y := s.y + min s.speed (s.dy - s.y) }
  else { s with y := s.y - min s.speed (s.y - s.dy) }

/-- Embedding of `RandomWalkEnemy.update` (lines 367-373) without the
collision branch: if the destination equals the position on both
coordinates, draw a new destination; then `update_x`; then `update_y`. -/
def rwMove (width height : ℤ) (rx ry : ℕ) (s : RWs) : RWs :=
  let s0 :=
    if s.dx = s.x ∧ s.dy = s.y then
      { s with dx := ((genDest width height rx ry).1 : ℚ),
               dy := ((genDest width height rx ry).2 : ℚ) }
    else s
  rwUpdateY (rwUpdateX s0)

/-- Embedding of the full `RandomWalkEnemy.update` (lines 367-373)
including `if self.hits_player(): self.game.game_over_lose()`. -/
def rwUpdate (width height : ℤ) (size px py : ℚ) (rx ry : ℕ)
    (g : GameS) (s : RWs) : GameS × RWs :=
  let s1 := rwMove width height rx ry s
  if hitsPlayer s1.x s1.y size px py then (gameOverLose g, s1) else (g, s1)

/-! ## Player (turtle movement, real-valued) -/

/-- Real-valued embedding of `Home.contains` (lines 128-134), as used by
`Player.update` on the player's real-valued turtle position. -/
def homeContainsR (hx hy size x y : ℝ) : Prop :=
  hx - size / 2 ≤ x ∧ x ≤ hx + size / 2 ∧ hy - size / 2 ≤ y ∧ y ≤ hy + size / 2

/-- State of the `Player` together with the shared `Waypoint`
(lines 30-84 and 137-207): turtle position `(px, py)`, waypoint position
`(wx, wy)` and its active flag. -/
structure PlayerS where
  px : ℝ
  py : ℝ
  wx : ℝ
  wy : ℝ
  wActive : Bool

/-- Embedding of `turtle.setheading(turtle.towards(wx, wy))` followed by
`turtle.forward(speed)` (lines 180-181): move by `speed` along the unit
vector toward `(wx, wy)`; when the player already stands at the waypoint,
`towards` returns heading 0 (Python's `atan2(0, 0) = 0`), so the turtle
moves by `speed` along the heading-zero axis. -/
noncomputable def turtleTowardsStep (px py wx wy speed : ℝ) : ℝ × ℝ :=
  let d := Real.sqrt ((wx - px) ^ 2 + (wy - py) ^ 2)
  if d = 0 then (px + speed, py)
  else (px + speed * ((wx - px) / d), py + speed * ((wy - py) / d))

open Classical in
/-- The movement half of `Player.update` (lines 177-183): if the waypoint
is active, one `towards`/`forward` step toward it, then
`waypoint.deactivate()` when the new distance to the waypoint is strictly
below `speed`; no-op when the waypoint is inactive. -/
noncomputable def playerMove (speed : ℝ) (s : PlayerS) : PlayerS :=
  if s.wActive then
    let p := turtleTowardsStep s.px s.py s.wx s.wy speed
    let s2 := { s with px := p.1, py := p.2 }
    if Real.sqrt ((s.wx - p.1) ^ 2 + (s.wy - p.2) ^ 2) < speed then
      { s2 with wActive := false }
    else s2
  else s

open Classical in
/-- Embedding of `Player.update` (lines 173-183): first
`if home.contains(x, y): game_over_win()` — with no early return — then
the waypoint movement step. The win call touches only the session, the
movement only the player/waypoint, so the update is their pair. -/
noncomputable def playerUpdate (hx hy hsize speed : ℝ)
    (g : GameS) (s : PlayerS) : GameS × PlayerS :=
  (if homeContainsR hx hy hsize s.px s.py then gameOverWin g else g,
   playerMove speed s)

/-! ## CrossEnemy (diagonal sweep, real-valued) -/

/-- The state selector of a `CrossEnemy`: which of `move_down_state` /
`move_up_state` is currently bound. -/
inductive CrossDir where
  | down : CrossDir
  | up : CrossDir
  deriving DecidableEq, Repr

/-- State of a `CrossEnemy` (lines 495-547): position and the bound
movement state (the cached `__x_speed`/`__y_speed` are recomputed before
every move and are omitted). -/
structure CrossS where
  x : ℝ
  y : ℝ
  st : CrossDir

/-- The normalising hypotenuse computed in `CrossEnemy.move_down_state`
(line 520): the length of the vector from the position to the
bottom-right corner `(width, height)`. -/
noncomputable def hypotenuseDown (width height x y : ℝ) : ℝ :=
  Real.sqrt ((width - x) ^ 2 + (height - y) ^ 2)

/-- The normalising hypotenuse computed in `CrossEnemy.move_up_state`
(line 534): the length of the vector `(width - x, y)` toward the
top-right corner. -/
noncomputable def hypotenuseUp (width x y : ℝ) : ℝ :=
  Real.sqrt ((width - x) ^ 2 + y ^ 2)

open Classical in
/-- Embedding of `CrossEnemy.move_down_state` (lines 516-528): while the
remaining vertical distance to the bottom edge is at least 10, advance by
`speed` along the normalised vector toward `(width, height)`; otherwise
teleport to the bottom-left corner and rebind to `move_up_state`. -/
noncomputable def crossMoveDown (width height speed : ℝ) (s : CrossS) : CrossS :=
  if 10 ≤ height - s.y then
    let h := hypotenuseDown width height s.x s.y
    { s with x := s.x + speed * ((width - s.x) / h),
             y := s.y + speed * ((height - s.y) / h) }
  else { s with x := 0, y := height, st := CrossDir.up }

open Classical in
/-- Embedding of `CrossEnemy.move_up_state` (lines 530-542): while the
vertical distance to the top edge is at least 10, advance by `speed`
along the normalised vector `(width - x, y)` (moving up); otherwise
teleport to the top-left corner and rebind to `move_down_state`. -/
noncomputable def crossMoveUp (width speed : ℝ) (s : CrossS) : CrossS :=
  if 10 ≤ s.y then
    let h := hypotenuseUp width s.x s.y
    { s with x := s.x + speed * ((width - s.x) / h),
             y := s.y - speed * (s.y / h) }
  else { s with x := 0, y := 0, st := CrossDir.down }

/-! ## Claim theorems -/

/-- Claim C3 (confirmed): `hits_player` returns true exactly when the
player position lies strictly inside the open square
`(ex - size/2, ex + size/2) × (ey - size/2, ey + size/2)`; a player
exactly on the boundary edge `px = ex - size/2` never registers a
collision, and a player strictly inside always does. -/
theorem hitsPlayer_strict_open (ex ey size px py : ℚ) :
    (hitsPlayer ex ey size px py = true ↔
      (ex - size / 2 < px ∧ px < ex + size / 2) ∧
      (ey - size / 2 < py ∧ py < ey + size / 2)) ∧
    (px = ex - size / 2 → hitsPlayer ex ey size px py = false) := by
  constructor
  · simp [hitsPlayer]
  · intro h
    subst h
    simp [hitsPlayer]

/-- Witness for C3 at concrete inputs: a player on the left boundary edge
of an enemy of size 10 at the origin is not hit; a player strictly inside
is. -/
theorem hitsPlayer_strict_open_witness :
    hitsPlayer 0 0 10 (-5) 0 = false ∧ hitsPlayer 0 0 10 1 1 = true := by
  constructor
  · exact (hitsPlayer_strict_open 0 0 10 (-5) 0).2 (by norm_num)
  · exact (hitsPlayer_strict_open 0 0 10 1 1).1.mpr (by norm_num)

/-- Claim C4 (confirmed): the baseline wave of `create_enemy` spawns
exactly `max 0 (2L-1)` random-walk, `max 0 ⌈L/3⌉` chasing, `max 0 ⌈L/2⌉`
fencing and `max 0 (3L-2)` cross enemies; for `L = 3` this is
`(5, 1, 2, 7)`, and any non-positive count spawns zero enemies without
error. -/
theorem createEnemyCounts_formula (L : ℤ) :
    (((createEnemyCounts L).1 : ℤ) = max 0 (2 * L - 1) ∧
     ((createEnemyCounts L).2.1 : ℤ) = max 0 (Int.ceil ((L : ℚ) / 3)) ∧
     ((createEnemyCounts L).2.2.1 : ℤ) = max 0 (Int.ceil ((L : ℚ) / 2)) ∧
     ((createEnemyCounts L).2.2.2 : ℤ) = max 0 (3 * L - 2)) ∧
    createEnemyCounts 3 = (5, 1, 2, 7) ∧
    (L ≤ 0 → createEnemyCounts L = (0, 0, 0, 0)) := by
  have hceil : Int.ceil ((3 : ℚ) / 2) = 2 :=
    Int.ceil_eq_iff.mpr (by norm_num)
  have hL3 : createEnemyCounts 3 = (5, 1, 2, 7) := by
    norm_num [createEnemyCounts, createRandomCount, createChasingCount,
      createFencingCount, createCrossCount, hceil]
    exact ⟨by decide, by decide, by decide⟩
  refine ⟨⟨?_, ?_, ?_, ?_⟩, hL3, ?_⟩
  · show ((2 * L - 1).toNat : ℤ) = max 0 (2 * L - 1)
    rw [Int.toNat_eq_max, max_comm]
  · show ((Int.ceil ((L : ℚ) / 3)).toNat : ℤ) = max 0 (Int.ceil ((L : ℚ) / 3))
    rw [Int.toNat_eq_max, max_comm]
  · show ((Int.ceil ((L : ℚ) / 2)).toNat : ℤ) = max 0 (Int.ceil ((L : ℚ) / 2))
    rw [Int.toNat_eq_max, max_comm]
  · show ((3 * L - 2).toNat : ℤ) = max 0 (3 * L - 2)
    rw [Int.toNat_eq_max, max_comm]
  · intro hL
    have hLq : (L : ℚ) ≤ 0 := by exact_mod_cast hL
    have h3 : Int.ceil ((L : ℚ) / 3) ≤ 0 := Int.ceil_le.mpr (by push_cast; linarith)
    have h2 : Int.ceil ((L : ℚ) / 2) ≤ 0 := Int.ceil_le.mpr (by push_cast; linarith)
    simp only [createEnemyCounts, createRandomCount, createChasingCount,
      createFencingCount, createCrossCount, Prod.mk.injEq]
    refine ⟨by omega, by omega, by omega, by omega⟩

/-- Witness for C4: at level 0 every category count degrades to zero. -/
theorem createEnemyCounts_formula_witness :
    createEnemyCounts 0 = (0, 0, 0, 0) :=
  (createEnemyCounts_formula 0).2.2 (le_refl 0)

/-- Claim C5, counterexample: at level 12 each 10-second callback spawns
`createChasingCount 12 (some (12/4)) = ⌈3/3⌉ = 1` chasing enemy, not
`12/4 = 3` as the claim states. -/
theorem subWaveCount_ne_level_div_four :
    subWaveCount 12 = 1 ∧ (12 : ℤ) / 4 = 3 ∧ (1 : ℕ) ≠ 3 := by
  refine ⟨?_, by decide, by decide⟩
  norm_num [subWaveCount, createChasingCount]

/-- Claim C5 (corrected): constructing the generator schedules one 100ms
baseline callback and exactly three 10-second callbacks, but each of the
latter spawns `⌈level/12⌉` (clamped to zero) chasing enemies — the
`level/4` argument is divided by 3 again inside `create_chasing` — not
`level/4` of them. -/
theorem generatorSchedule_spec (L : ℤ) :
    generatorSchedule L =
      [(100, SpawnEvent.baseline),
       (10000, SpawnEvent.subwave (subWaveCount L)),
       (10000, SpawnEvent.subwave (subWaveCount L)),
       (10000, SpawnEvent.subwave (subWaveCount L))] ∧
    subWaveCount L = (Int.ceil ((L : ℚ) / 12)).toNat := by
  refine ⟨rfl, ?_⟩
  by_cases hL : (L : ℚ) / 4 = 0
  · have hL0 : L = 0 := by
      have : (L : ℚ) = 0 := by
        field_simp at hL
        exact_mod_cast hL
      exact_mod_cast this
    subst hL0
    norm_num [subWaveCount, createChasingCount]
  · simp only [subWaveCount, createChasingCount, if_neg hL]
    congr 2
    ring

/-- Claim C10 (confirmed): `Home.contains` is a closed-interval test: it
holds exactly when both coordinates lie in the closed square around the
home center, so a player exactly on the boundary edge counts as arrived
(and `Player.update` then triggers the win transition), in contrast to
the enemy hit-box, which excludes its boundary. -/
theorem homeContains_closed (hx hy size x y : ℚ) :
    (homeContains hx hy size x y = true ↔
      (hx - size / 2 ≤ x ∧ x ≤ hx + size / 2) ∧
      (hy - size / 2 ≤ y ∧ y ≤ hy + size / 2)) ∧
    (0 ≤ size → homeContains hx hy size (hx - size / 2) hy = true) ∧
    hitsPlayer hx hy size (hx - size / 2) hy = false ∧
    (∀ (hxR hyR sizeR speed : ℝ) (g : GameS) (s : PlayerS),
      0 ≤ sizeR → s.px = hxR - sizeR / 2 → s.py = hyR →
      (playerUpdate hxR hyR sizeR speed g s).1 = gameOverWin g) := by
  refine ⟨by simp [homeContains], ?_, ?_, ?_⟩
  · intro hsz
    simp only [homeContains, Bool.and_eq_true, decide_eq_true_eq]
    refine ⟨⟨le_refl _, by linarith⟩, ⟨by linarith, by linarith⟩⟩
  · simp [hitsPlayer]
  · intro hxR hyR sizeR speed g s hsz hpx hpy
    have hc : homeContainsR hxR hyR sizeR s.px s.py := by
      refine ⟨by rw [hpx], by rw [hpx]; linarith, by rw [hpy]; linarith,
        by rw [hpy]; linarith⟩
    simp only [playerUpdate, if_pos hc]

/-- Witness for C10: with the home of `init_game` (size 20) at the
origin, the point on its left boundary edge is contained but is not an
enemy hit, and a player standing there wins on update. -/
theorem homeContains_closed_witness :
    homeContains 0 0 20 (-10) 0 = true ∧
    hitsPlayer 0 0 20 (-10) 0 = false ∧
    (playerUpdate 0 0 20 5 ⟨true, []⟩ ⟨-10, 0, 0, 0, false⟩).1 =
      gameOverWin ⟨true, []⟩ := by
  have h := homeContains_closed 0 0 20 (-10) 0
  have he : (0 - 20 / 2 : ℚ) = -10 := by norm_num
  refine ⟨?_, ?_, ?_⟩
  · have h1 := h.2.1 (by norm_num)
    rwa [he] at h1
  · have h1 := h.2.2.1
    rwa [he] at h1
  · exact h.2.2.2 0 0 20 5 ⟨true, []⟩ ⟨-10, 0, 0, 0, false⟩ (by norm_num)
      (by norm_num) rfl

/-- Claim C9 (confirmed): in both `CrossEnemy` movement states the
normalising hypotenuse is nonzero at every position at which the division
executes — each state's own guard bounds its vertical component below by
10 — and the zero-length case at the target corner is special-cased into
the teleport branch before any division. -/
theorem cross_hypotenuse_guarded (width height speed x y : ℝ) :
    (10 ≤ height - y →
      0 < hypotenuseDown width height x y ∧
      hypotenuseDown width height x y ≠ 0) ∧
    (10 ≤ y → 0 < hypotenuseUp width x y ∧ hypotenuseUp width x y ≠ 0) ∧
    (∀ x0 : ℝ, crossMoveDown width height speed ⟨x0, height, CrossDir.down⟩ =
      ⟨0, height, CrossDir.up⟩) ∧
    (∀ x0 : ℝ, crossMoveUp width speed ⟨x0, 0, CrossDir.up⟩ =
      ⟨0, 0, CrossDir.down⟩) := by
  refine ⟨?_, ?_, ?_, ?_⟩
  · intro hdown
    have hd : 0 < hypotenuseDown width height x y := by
      apply Real.sqrt_pos.mpr
      have h1 : (0 : ℝ) < (height - y) ^ 2 := by nlinarith
      nlinarith [sq_nonneg (width - x)]
    exact ⟨hd, ne_of_gt hd⟩
  · intro hup
    have hu : 0 < hypotenuseUp width x y := by
      apply Real.sqrt_pos.mpr
      have h1 : (0 : ℝ) < y ^ 2 := by nlinarith
      nlinarith [sq_nonneg (width - x)]
    exact ⟨hu, ne_of_gt hu⟩
  · intro x0
    simp only [crossMoveDown]
    rw [if_neg (by norm_num)]
  · intro x0
    simp only [crossMoveUp]
    rw [if_neg (by norm_num)]

/-- Witness for C9 on a concrete 800x500 screen: the down state dividing
at the spawn corner `(0, 0)`, the up state dividing at the post-teleport
position `(0, 500)`, and the teleport branch at the bottom edge. -/
theorem cross_hypotenuse_guarded_witness :
    0 < hypotenuseDown 800 500 0 0 ∧ 0 < hypotenuseUp 800 0 500 ∧
    crossMoveDown 800 500 12 ⟨0, 500, CrossDir.down⟩ = ⟨0, 500, CrossDir.up⟩ := by
  have h := cross_hypotenuse_guarded 800 500 12 0 0
  have h2 := cross_hypotenuse_guarded 800 500 12 0 500
  exact ⟨(h.1 (by norm_num)).1, (h2.2.1 (by norm_num)).1, h.2.2.1 0⟩

/-! ## DemoEnemy helper lemmas -/

theorem bounceFactor_one_le (c : Bool) : 1 ≤ bounceFactor c := by
  cases c <;> norm_num [bounceFactor]

theorem bounceFactor_cases (c : Bool) :
    bounceFactor c = 1 ∨ bounceFactor c = 11 / 10 := by
  cases c
  · exact Or.inl rfl
  · exact Or.inr rfl

theorem demoStepX_x_eq (w : ℚ) (c : Bool) (s : DemoS) :
    (demoStepX w c s).x = s.x + s.speed ∨ (demoStepX w c s).x = s.x - s.speed := by
  cases hxd : s.xd <;> simp only [demoStepX, hxd] <;> split
  · exact Or.inl rfl
  · exact Or.inl rfl
  · exact Or.inr rfl
  · exact Or.inr rfl

theorem demoStepY_x_eq (h : ℚ) (c : Bool) (s : DemoS) :
    (demoStepY h c s).x = s.x := by
  cases hyd : s.yd <;> simp only [demoStepY, hyd] <;> split <;> rfl

theorem demoStepX_speed_le (w : ℚ) (c : Bool) (s : DemoS) (hsp : 0 ≤ s.speed) :
    s.speed ≤ (demoStepX w c s).speed ∧ 0 ≤ (demoStepX w c s).speed := by
  have hf := bounceFactor_one_le c
  have hm : s.speed ≤ s.speed * bounceFactor c := le_mul_of_one_le_right hsp hf
  cases hxd : s.xd <;> simp only [demoStepX, hxd] <;> split
  · exact ⟨hm, le_trans hsp hm⟩
  · exact ⟨le_refl _, hsp⟩
  · exact ⟨hm, le_trans hsp hm⟩
  · exact ⟨le_refl _, hsp⟩

theorem demoStepY_speed_le (h : ℚ) (c : Bool) (s : DemoS) (hsp : 0 ≤ s.speed) :
    s.speed ≤ (demoStepY h c s).speed ∧ 0 ≤ (demoStepY h c s).speed := by
  have hf := bounceFactor_one_le c
  have hm : s.speed ≤ s.speed * bounceFactor c := le_mul_of_one_le_right hsp hf
  cases hyd : s.yd <;> simp only [demoStepY, hyd] <;> split
  · exact ⟨hm, le_trans hsp hm⟩
  · exact ⟨le_refl _, hsp⟩
  · exact ⟨hm, le_trans hsp hm⟩
  · exact ⟨le_refl _, hsp⟩

theorem demoMove_speed_le (w h : ℚ) (cx cy : Bool) (s : DemoS)
    (hsp : 0 ≤ s.speed) :
    s.speed ≤ (demoMove w h cx cy s).speed ∧ 0 ≤ (demoMove w h cx cy s).speed := by
  have h1 := demoStepX_speed_le w cx s hsp
  have h2 := demoStepY_speed_le h cy (demoStepX w cx s) h1.2
  exact ⟨le_trans h1.1 h2.1, h2.2⟩

theorem demoRun_speed_le (w h : ℚ) (cs : List (Bool × Bool)) (s : DemoS)
    (hsp : 0 ≤ s.speed) :
    s.speed ≤ (demoRun w h cs s).speed ∧ 0 ≤ (demoRun w h cs s).speed := by
  induction cs generalizing s with
  | nil => exact ⟨le_refl _, hsp⟩
  | cons c cs ih =>
    have h1 := demoMove_speed_le w h c.1 c.2 s hsp
    have h2 := ih (demoMove w h c.1 c.2 s) h1.2
    exact ⟨le_trans h1.1 h2.1, h2.2⟩

theorem demoUpdate_snd (w h size px py : ℚ) (cx cy : Bool) (g : GameS)
    (s : DemoS) :
    (demoUpdate w h size px py cx cy g s).2 = demoMove w h cx cy s := by
  simp only [demoUpdate]
  split <;> rfl

theorem demoStepX_right_spec (w : ℚ) (c : Bool) (s : DemoS)
    (hxd : s.xd = XDir.moveRight) :
    (demoStepX w c s).x = s.x + s.speed ∧
    ((demoStepX w c s).xd = XDir.moveLeft ↔
      checkXBorder w (s.x + s.speed) = true) ∧
    (checkXBorder w (s.x + s.speed) = true →
      (demoStepX w c s).speed = s.speed * bounceFactor c) ∧
    (checkXBorder w (s.x + s.speed) = false →
      (demoStepX w c s).xd = XDir.moveRight ∧
      (demoStepX w c s).speed = s.speed) := by
  simp only [demoStepX, hxd]
  by_cases hb : checkXBorder w (s.x + s.speed) = true
  · rw [if_pos hb]
    exact ⟨rfl, ⟨fun _ => hb, fun _ => rfl⟩, fun _ => rfl,
      fun hnb => by rw [hb] at hnb; exact Bool.noConfusion hnb⟩
  · rw [if_neg hb]
    refine ⟨rfl, ⟨fun hL => ?_, fun hbt => absurd hbt hb⟩,
      fun hbt => absurd hbt hb, fun _ => ⟨rfl, rfl⟩⟩
    exact XDir.noConfusion hL

theorem demoStepX_left_spec (w : ℚ) (c : Bool) (s : DemoS)
    (hxd : s.xd = XDir.moveLeft) :
    (demoStepX w c s).x = s.x - s.speed ∧
    ((demoStepX w c s).xd = XDir.moveRight ↔
      checkXBorder w (s.x - s.speed) = true) ∧
    (checkXBorder w (s.x - s.speed) = true →
      (demoStepX w c s).speed = s.speed * bounceFactor c) ∧
    (checkXBorder w (s.x - s.speed) = false →
      (demoStepX w c s).xd = XDir.moveLeft ∧
      (demoStepX w c s).speed = s.speed) := by
  simp only [demoStepX, hxd]
  by_cases hb : checkXBorder w (s.x - s.speed) = true
  · rw [if_pos hb]
    exact ⟨rfl, ⟨fun _ => hb, fun _ => rfl⟩, fun _ => rfl,
      fun hnb => by rw [hb] at hnb; exact Bool.noConfusion hnb⟩
  · rw [if_neg hb]
    refine ⟨rfl, ⟨fun hL => ?_, fun hbt => absurd hbt hb⟩,
      fun hbt => absurd hbt hb, fun _ => ⟨rfl, rfl⟩⟩
    exact XDir.noConfusion hL

theorem demoStepY_down_spec (h : ℚ) (c : Bool) (s : DemoS)
    (hyd : s.yd = YDir.moveDown) :
    (demoStepY h c s).y = s.y + s.speed ∧
    ((demoStepY h c s).yd = YDir.moveUp ↔
      checkYBorder h (s.y + s.speed) = true) ∧
    (checkYBorder h (s.y + s.speed) = true →
      (demoStepY h c s).speed = s.speed * bounceFactor c) ∧
    (checkYBorder h (s.y + s.speed) = false →
      (demoStepY h c s).yd = YDir.moveDown ∧
      (demoStepY h c s).speed = s.speed) := by
  simp only [demoStepY, hyd]
  by_cases hb : checkYBorder h (s.y + s.speed) = true
  · rw [if_pos hb]
    exact ⟨rfl, ⟨fun _ => hb, fun _ => rfl⟩, fun _ => rfl,
      fun hnb => by rw [hb] at hnb; exact Bool.noConfusion hnb⟩
  · rw [if_neg hb]
    refine ⟨rfl, ⟨fun hL => ?_, fun hbt => absurd hbt hb⟩,
      fun hbt => absurd hbt hb, fun _ => ⟨rfl, rfl⟩⟩
    exact YDir.noConfusion hL

theorem demoStepY_up_spec (h : ℚ) (c : Bool) (s : DemoS)
    (hyd : s.yd = YDir.moveUp) :
    (demoStepY h c s).y = s.y - s.speed ∧
    ((demoStepY h c s).yd = YDir.moveDown ↔
      checkYBorder h (s.y - s.speed) = true) ∧
    (checkYBorder h (s.y - s.speed) = true →
      (demoStepY h c s).speed = s.speed * bounceFactor c) ∧
    (checkYBorder h (s.y - s.speed) = false →
      (demoStepY h c s).yd = YDir.moveUp ∧
      (demoStepY h c s).speed = s.speed) := by
  simp only [demoStepY, hyd]
  by_cases hb : checkYBorder h (s.y - s.speed) = true
  · rw [if_pos hb]
    exact ⟨rfl, ⟨fun _ => hb, fun _ => rfl⟩, fun _ => rfl,
      fun hnb => by rw [hb] at hnb; exact Bool.noConfusion hnb⟩
  · rw [if_neg hb]
    refine ⟨rfl, ⟨fun hL => ?_, fun hbt => absurd hbt hb⟩,
      fun hbt => absurd hbt hb, fun _ => ⟨rfl, rfl⟩⟩
    exact YDir.noConfusion hL

/-- Claim C1, counterexample: on a session that is already terminal (the
loop was stopped and one "You Win" banner drawn), a further call of
`game_over_win` is not a no-op — it draws a second banner — and a
`DemoEnemy.update` on the terminal session still moves the enemy. -/
theorem gameOver_not_idempotent :
    gameOverWin (gameOverWin ⟨true, []⟩) ≠ gameOverWin ⟨true, []⟩ ∧
    (gameOverWin (gameOverWin ⟨true, []⟩)).banners = ["You Win", "You Win"] ∧
    (demoUpdate 800 500 15 400 400 false false (gameOverWin ⟨true, []⟩)
        ⟨0, 0, 1, XDir.moveRight, YDir.moveDown⟩).2.x ≠
      (⟨0, 0, 1, XDir.moveRight, YDir.moveDown⟩ : DemoS).x := by
  refine ⟨by decide, by decide, ?_⟩
  rw [demoUpdate_snd]
  norm_num [demoMove, demoStepX, demoStepY, checkXBorder, checkYBorder]

/-- Claim C1 (corrected/amended): `game_over_win` and `game_over_lose`
unconditionally stop the tick loop and draw one banner per call — they
are not guarded by any terminal flag, so a repeated call draws a second
banner — and enemy updates are not gated on a terminal flag either: a
`DemoEnemy.update` invoked on a terminal session still changes the
enemy's position. Terminal no-op behaviour holds only because the stopped
loop ceases to invoke updates. -/
theorem gameOver_unconditional (g : GameS) (s : DemoS)
    (width height size ppx ppy : ℚ) (cx cy : Bool) (hsp : s.speed ≠ 0) :
    gameOverWin g = ⟨false, g.banners ++ ["You Win"]⟩ ∧
    gameOverLose g = ⟨false, g.banners ++ ["You Lose"]⟩ ∧
    (gameOverWin (gameOverWin g)).banners.length = g.banners.length + 2 ∧
    (demoUpdate width height size ppx ppy cx cy g s).2.x ≠ s.x := by
  refine ⟨rfl, rfl, by simp [gameOverWin, GameS.stop], ?_⟩
  rw [demoUpdate_snd]
  show (demoStepY height cy (demoStepX width cx s)).x ≠ s.x
  rw [demoStepY_x_eq]
  rcases demoStepX_x_eq width cx s with h | h <;> rw [h] <;>
    intro hcon <;> apply hsp <;> linarith

/-- Witness for C1's amended theorem at a concrete terminal session and
enemy. -/
theorem gameOver_unconditional_witness :
    gameOverWin ⟨false, ["You Lose"]⟩ = ⟨false, ["You Lose", "You Win"]⟩ ∧
    (demoUpdate 800 500 15 400 400 true true ⟨false, ["You Lose"]⟩
        ⟨10, 10, 2, XDir.moveLeft, YDir.moveUp⟩).2.x ≠ 10 := by
  have h := gameOver_unconditional ⟨false, ["You Lose"]⟩
    ⟨10, 10, 2, XDir.moveLeft, YDir.moveUp⟩ 800 500 15 400 400 true true
    (by norm_num)
  exact ⟨h.1, h.2.2.2⟩

/-- Claim C8 (confirmed): each axis of a `DemoEnemy` holds its own
direction state; in every one of the four movement states, the moved
coordinate crossing the screen-edge boundary on that axis flips exactly
that axis's direction state and multiplies the speed by the drawn factor,
which is always 1 or 11/10 (and a non-crossing move leaves direction and
speed unchanged); consequently the speed never decreases across any
sequence of updates; and an enemy at the right screen edge moving right
with speed 4 has, after the boundary tick, x-state move-left and speed at
least 4. -/
theorem demoEnemy_bounce (width height : ℚ) (cx cy : Bool) (s : DemoS)
    (hsp : 0 ≤ s.speed) :
    s.speed ≤ (demoMove width height cx cy s).speed ∧
    (∀ cs : List (Bool × Bool), s.speed ≤ (demoRun width height cs s).speed) ∧
    (bounceFactor cx = 1 ∨ bounceFactor cx = 11 / 10) ∧
    (bounceFactor cy = 1 ∨ bounceFactor cy = 11 / 10) ∧
    (s.xd = XDir.moveRight →
      (demoStepX width cx s).x = s.x + s.speed ∧
      ((demoStepX width cx s).xd = XDir.moveLeft ↔
        checkXBorder width (s.x + s.speed) = true) ∧
      (checkXBorder width (s.x + s.speed) = true →
        (demoStepX width cx s).speed = s.speed * bounceFactor cx) ∧
      (checkXBorder width (s.x + s.speed) = false →
        (demoStepX width cx s).xd = XDir.moveRight ∧
        (demoStepX width cx s).speed = s.speed)) ∧
    (s.xd = XDir.moveLeft →
      (demoStepX width cx s).x = s.x - s.speed ∧
      ((demoStepX width cx s).xd = XDir.moveRight ↔
        checkXBorder width (s.x - s.speed) = true) ∧
      (checkXBorder width (s.x - s.speed) = true →
        (demoStepX width cx s).speed = s.speed * bounceFactor cx) ∧
      (checkXBorder width (s.x - s.speed) = false →
        (demoStepX width cx s).xd = XDir.moveLeft ∧
        (demoStepX width cx s).speed = s.speed)) ∧
    (s.yd = YDir.moveDown →
      (demoStepY height cy s).y = s.y + s.speed ∧
      ((demoStepY height cy s).yd = YDir.moveUp ↔
        checkYBorder height (s.y + s.speed) = true) ∧
      (checkYBorder height (s.y + s.speed) = true →
        (demoStepY height cy s).speed = s.speed * bounceFactor cy) ∧
      (checkYBorder height (s.y + s.speed) = false →
        (demoStepY height cy s).yd = YDir.moveDown ∧
        (demoStepY height cy s).speed = s.speed)) ∧
    (s.yd = YDir.moveUp →
      (demoStepY height cy s).y = s.y - s.speed ∧
      ((demoStepY height cy s).yd = YDir.moveDown ↔
        checkYBorder height (s.y - s.speed) = true) ∧
      (checkYBorder height (s.y - s.speed) = true →
        (demoStepY height cy s).speed = s.speed * bounceFactor cy) ∧
      (checkYBorder height (s.y - s.speed) = false →
        (demoStepY height cy s).yd = YDir.moveUp ∧
        (demoStepY height cy s).speed = s.speed)) ∧
    (∀ (c : Bool) (t : DemoS), t.x = width → t.speed = 4 →
      t.xd = XDir.moveRight →
      (demoStepX width c t).xd = XDir.moveLeft ∧
        4 ≤ (demoStepX width c t).speed) := by
  refine ⟨(demoMove_speed_le width height cx cy s hsp).1,
    fun cs => (demoRun_speed_le width height cs s hsp).1,
    bounceFactor_cases cx, bounceFactor_cases cy,
    fun hxd => demoStepX_right_spec width cx s hxd,
    fun hxd => demoStepX_left_spec width cx s hxd,
    fun hyd => demoStepY_down_spec height cy s hyd,
    fun hyd => demoStepY_up_spec height cy s hyd, ?_⟩
  intro c t htx htsp htxd
  have hb : checkXBorder width (t.x + t.speed) = true := by
    simp only [checkXBorder, htx, htsp, Bool.or_eq_true, decide_eq_true_eq]
    right
    linarith
  have hspec := demoStepX_right_spec width c t htxd
  refine ⟨hspec.2.1.mpr hb, ?_⟩
  rw [hspec.2.2.1 hb, htsp]
  rcases bounceFactor_cases c with hf | hf <;> rw [hf] <;> norm_num

/-- Witness for C8: a patrol enemy at the right edge of an 800-wide
screen, moving right at speed 4, flips to move-left with speed at least 4
(for either multiplier draw), and its speed never decreases over a
concrete run. -/
theorem demoEnemy_bounce_witness :
    (demoStepX 800 true ⟨800, 0, 4, XDir.moveRight, YDir.moveDown⟩).xd =
      XDir.moveLeft ∧
    4 ≤ (demoStepX 800 true ⟨800, 0, 4, XDir.moveRight, YDir.moveDown⟩).speed ∧
    4 ≤ (demoRun 800 500 [(true, false), (false, true)]
      ⟨800, 0, 4, XDir.moveRight, YDir.moveDown⟩).speed := by
  have h := demoEnemy_bounce 800 500 true false
    ⟨800, 0, 4, XDir.moveRight, YDir.moveDown⟩ (by norm_num)
  have hc := h.2.2.2.2.2.2.2.2 true ⟨800, 0, 4, XDir.moveRight, YDir.moveDown⟩
    rfl rfl rfl
  exact ⟨hc.1, hc.2, h.2.1 [(true, false), (false, true)]⟩


/-! ## RandomWalkEnemy helper lemmas -/

theorem seek_step_spec (x d sp x' : ℚ) (hsp : 0 ≤ sp)
    (hx : x' = if d > x then x + min sp (d - x) else x - min sp (x - d)) :
    |x' - x| = min sp |d - x| ∧ |d - x'| ≤ |d - x| ∧
    (x ≤ d → x' ≤ d) ∧ (d ≤ x → d ≤ x') := by
  by_cases h : d > x
  · rw [if_pos h] at hx
    have h0 : 0 ≤ min sp (d - x) := le_min hsp (by linarith)
    have h2 : min sp (d - x) ≤ d - x := min_le_right _ _
    subst hx
    rw [abs_of_pos (by linarith : (0 : ℚ) < d - x)]
    refine ⟨?_, ?_, fun _ => by linarith, fun hdx => by linarith⟩
    · rw [show x + min sp (d - x) - x = min sp (d - x) by ring,
        abs_of_nonneg h0]
    · rw [abs_of_nonneg (by linarith : (0 : ℚ) ≤ d - (x + min sp (d - x)))]
      linarith
  · rw [if_neg h] at hx
    push_neg at h
    have h0 : 0 ≤ min sp (x - d) := le_min hsp (by linarith)
    have h2 : min sp (x - d) ≤ x - d := min_le_right _ _
    subst hx
    rw [abs_sub_comm d x, abs_of_nonneg (by linarith : (0 : ℚ) ≤ x - d)]
    refine ⟨?_, ?_, fun hxd => by linarith, fun _ => by linarith⟩
    · rw [show x - min sp (x - d) - x = -min sp (x - d) by ring, abs_neg,
        abs_of_nonneg h0]
    · rw [abs_of_nonpos (by linarith : d - (x - min sp (x - d)) ≤ 0)]
      linarith

theorem rwUpdateX_x_eq (t : RWs) :
    (rwUpdateX t).x =
      if t.dx > t.x then t.x + min t.speed (t.dx - t.x)
      else t.x - min t.speed (t.x - t.dx) := by
  by_cases h : t.dx > t.x <;> simp [rwUpdateX, h]

theorem rwUpdateY_y_eq (t : RWs) :
    (rwUpdateY t).y =
      if t.dy > t.y then t.y + min t.speed (t.dy - t.y)
      else t.y - min t.speed (t.y - t.dy) := by
  by_cases h : t.dy > t.y <;> simp [rwUpdateY, h]

theorem rwUpdateX_fields (t : RWs) :
    (rwUpdateX t).dx = t.dx ∧ (rwUpdateX t).dy = t.dy ∧
    (rwUpdateX t).y = t.y ∧ (rwUpdateX t).speed = t.speed := by
  by_cases h : t.dx > t.x <;> simp [rwUpdateX, h]

theorem rwUpdateY_fields (t : RWs) :
    (rwUpdateY t).dx = t.dx ∧ (rwUpdateY t).dy = t.dy ∧
    (rwUpdateY t).x = t.x ∧ (rwUpdateY t).speed = t.speed := by
  by_cases h : t.dy > t.y <;> simp [rwUpdateY, h]

/-- Claim C7 (confirmed): each `RandomWalkEnemy.update` moves each axis
independently by `min speed remaining` toward the current destination and
never overshoots it (the per-axis distance to the destination is
non-increasing and the coordinate never passes the destination), and a
new destination — lying within `[0, width] × [0, height]` — is drawn on
an update exactly when both coordinates equal the destination. -/
theorem randomWalk_contract (width height : ℤ) (rx ry : ℕ) (s : RWs)
    (hw : 0 ≤ width) (hh : 0 ≤ height) :
    (∀ t : RWs, 0 ≤ t.speed →
      |(rwUpdateX t).x - t.x| = min t.speed |t.dx - t.x| ∧
      |t.dx - (rwUpdateX t).x| ≤ |t.dx - t.x| ∧
      (t.x ≤ t.dx → (rwUpdateX t).x ≤ t.dx) ∧
      (t.dx ≤ t.x → t.dx ≤ (rwUpdateX t).x)) ∧
    (∀ t : RWs, 0 ≤ t.speed →
      |(rwUpdateY t).y - t.y| = min t.speed |t.dy - t.y| ∧
      |t.dy - (rwUpdateY t).y| ≤ |t.dy - t.y| ∧
      (t.y ≤ t.dy → (rwUpdateY t).y ≤ t.dy) ∧
      (t.dy ≤ t.y → t.dy ≤ (rwUpdateY t).y)) ∧
    (¬(s.dx = s.x ∧ s.dy = s.y) →
      (rwMove width height rx ry s).dx = s.dx ∧
      (rwMove width height rx ry s).dy = s.dy) ∧
    (s.dx = s.x ∧ s.dy = s.y →
      (rwMove width height rx ry s).dx = ((genDest width height rx ry).1 : ℚ) ∧
      (rwMove width height rx ry s).dy = ((genDest width height rx ry).2 : ℚ) ∧
      0 ≤ (rwMove width height rx ry s).dx ∧
      (rwMove width height rx ry s).dx ≤ (width : ℚ) ∧
      0 ≤ (rwMove width height rx ry s).dy ∧
      (rwMove width height rx ry s).dy ≤ (height : ℚ)) := by
  refine ⟨?_, ?_, ?_, ?_⟩
  · intro t ht
    exact seek_step_spec t.x t.dx t.speed (rwUpdateX t).x ht (rwUpdateX_x_eq t)
  · intro t ht
    exact seek_step_spec t.y t.dy t.speed (rwUpdateY t).y ht (rwUpdateY_y_eq t)
  · intro hne
    simp only [rwMove, if_neg hne]
    rw [(rwUpdateY_fields _).1, (rwUpdateX_fields _).1,
      (rwUpdateY_fields _).2.1, (rwUpdateX_fields _).2.1]
    exact ⟨rfl, rfl⟩
  · intro harr
    have hgx := pyRandint_mem 0 width rx hw
    have hgy := pyRandint_mem 0 height ry hh
    have hdx : (rwMove width height rx ry s).dx =
        ((genDest width height rx ry).1 : ℚ) := by
      simp only [rwMove, if_pos harr]
      rw [(rwUpdateY_fields _).1, (rwUpdateX_fields _).1]
    have hdy : (rwMove width height rx ry s).dy =
        ((genDest width height rx ry).2 : ℚ) := by
      simp only [rwMove, if_pos harr]
      rw [(rwUpdateY_fields _).2.1, (rwUpdateX_fields _).2.1]
    refine ⟨hdx, hdy, ?_, ?_, ?_, ?_⟩
    · rw [hdx]; exact_mod_cast hgx.1
    · rw [hdx]; exact_mod_cast hgx.2
    · rw [hdy]; exact_mod_cast hgy.1
    · rw [hdy]; exact_mod_cast hgy.2

/-- Witness for C7: a random-walk enemy standing exactly on its
destination `(50, 50)` redraws a destination inside the 800x500 screen
(seeds 0 give `(0, 0)`), and a concrete per-axis step moves by
`min speed remaining`. -/
theorem randomWalk_contract_witness :
    (rwMove 800 500 0 0 ⟨50, 50, 3, 50, 50⟩).dx =
      ((genDest 800 500 0 0).1 : ℚ) ∧
    0 ≤ (rwMove 800 500 0 0 ⟨50, 50, 3, 50, 50⟩).dx ∧
    (rwMove 800 500 0 0 ⟨50, 50, 3, 50, 50⟩).dx ≤ 800 ∧
    |(rwUpdateX ⟨0, 0, 5, 3, 0⟩).x - 0| = min 5 |3 - 0| := by
  have h := randomWalk_contract 800 500 0 0 ⟨50, 50, 3, 50, 50⟩
    (by norm_num) (by norm_num)
  have ha := h.2.2.2 ⟨rfl, rfl⟩
  have hx := h.1 ⟨0, 0, 5, 3, 0⟩ (by norm_num)
  refine ⟨ha.1, ha.2.2.1, ?_, ?_⟩
  · have := ha.2.2.2.1
    exact_mod_cast this
  · exact hx.1

/-! ## Player helper lemmas -/

theorem sq_sum_pos_of_ne (px py wx wy : ℝ) (hne : ¬(px = wx ∧ py = wy)) :
    0 < (wx - px) ^ 2 + (wy - py) ^ 2 := by
  rcases not_and_or.mp hne with h | h
  · have hz : wx - px ≠ 0 := sub_ne_zero.mpr (Ne.symm h)
    have h1 : 0 < (wx - px) ^ 2 := by
      have h2 := pow_pos (abs_pos.mpr hz) 2
      rwa [sq_abs] at h2
    nlinarith [sq_nonneg (wy - py)]
  · have hz : wy - py ≠ 0 := sub_ne_zero.mpr (Ne.symm h)
    have h1 : 0 < (wy - py) ^ 2 := by
      have h2 := pow_pos (abs_pos.mpr hz) 2
      rwa [sq_abs] at h2
    nlinarith [sq_nonneg (wx - px)]

theorem turtleTowardsStep_eq (px py wx wy speed : ℝ)
    (hne : ¬(px = wx ∧ py = wy)) :
    turtleTowardsStep px py wx wy speed =
      (px + speed * ((wx - px) / Real.sqrt ((wx - px) ^ 2 + (wy - py) ^ 2)),
       py + speed * ((wy - py) / Real.sqrt ((wx - px) ^ 2 + (wy - py) ^ 2))) := by
  have hsum := sq_sum_pos_of_ne px py wx wy hne
  have hdpos : 0 < Real.sqrt ((wx - px) ^ 2 + (wy - py) ^ 2) :=
    Real.sqrt_pos.mpr hsum
  simp only [turtleTowardsStep]
  rw [if_neg (ne_of_gt hdpos)]

theorem turtleTowardsStep_dist (px py wx wy speed : ℝ)
    (hne : ¬(px = wx ∧ py = wy)) (hsp : 0 ≤ speed) :
    Real.sqrt (((turtleTowardsStep px py wx wy speed).1 - px) ^ 2 +
      ((turtleTowardsStep px py wx wy speed).2 - py) ^ 2) = speed := by
  have hsum := sq_sum_pos_of_ne px py wx wy hne
  have hdpos : 0 < Real.sqrt ((wx - px) ^ 2 + (wy - py) ^ 2) :=
    Real.sqrt_pos.mpr hsum
  have hdne : Real.sqrt ((wx - px) ^ 2 + (wy - py) ^ 2) ≠ 0 := ne_of_gt hdpos
  have hdsq : Real.sqrt ((wx - px) ^ 2 + (wy - py) ^ 2) ^ 2 =
      (wx - px) ^ 2 + (wy - py) ^ 2 := Real.sq_sqrt hsum.le
  rw [turtleTowardsStep_eq px py wx wy speed hne]
  have expand :
      (px + speed * ((wx - px) / Real.sqrt ((wx - px) ^ 2 + (wy - py) ^ 2)) - px) ^ 2 +
      (py + speed * ((wy - py) / Real.sqrt ((wx - px) ^ 2 + (wy - py) ^ 2)) - py) ^ 2 =
      speed ^ 2 * (((wx - px) ^ 2 + (wy - py) ^ 2) /
        Real.sqrt ((wx - px) ^ 2 + (wy - py) ^ 2) ^ 2) := by
    field_simp
    ring
  rw [expand, hdsq, div_self (ne_of_gt hsum), mul_one, Real.sqrt_sq hsp]

theorem playerMove_active (speed : ℝ) (s : PlayerS) (hact : s.wActive = true) :
    (playerMove speed s).px = (turtleTowardsStep s.px s.py s.wx s.wy speed).1 ∧
    (playerMove speed s).py = (turtleTowardsStep s.px s.py s.wx s.wy speed).2 ∧
    ((playerMove speed s).wActive = false ↔
      Real.sqrt ((s.wx - (turtleTowardsStep s.px s.py s.wx s.wy speed).1) ^ 2 +
        (s.wy - (turtleTowardsStep s.px s.py s.wx s.wy speed).2) ^ 2) < speed) := by
  simp only [playerMove, hact, if_true]
  split
  · case isTrue h => exact ⟨rfl, rfl, by simp [h]⟩
  · case isFalse h => exact ⟨rfl, rfl, by simp [h]⟩

theorem playerMove_inactive (speed : ℝ) (t : PlayerS) (h : t.wActive = false) :
    playerMove speed t = t := by
  simp [playerMove, h]

theorem sqrt_nine_eq : Real.sqrt ((3 - 0 : ℝ) ^ 2 + (0 - 0 : ℝ) ^ 2) = 3 := by
  rw [show ((3 - 0 : ℝ) ^ 2 + (0 - 0 : ℝ) ^ 2) = 3 ^ 2 by norm_num,
    Real.sqrt_sq (by norm_num : (0 : ℝ) ≤ 3)]

theorem turtleStep_inst : turtleTowardsStep 0 0 3 0 5 = (5, 0) := by
  rw [turtleTowardsStep_eq 0 0 3 0 5 (by norm_num)]
  rw [sqrt_nine_eq]
  norm_num

theorem playerMove_inst_parts :
    (playerMove 5 ⟨0, 0, 3, 0, true⟩ : PlayerS).px = 5 ∧
    (playerMove 5 ⟨0, 0, 3, 0, true⟩ : PlayerS).py = 0 ∧
    (playerMove 5 ⟨0, 0, 3, 0, true⟩ : PlayerS).wActive = false := by
  have h := playerMove_active 5 ⟨0, 0, 3, 0, true⟩ rfl
  rw [turtleStep_inst] at h
  norm_num at h
  refine ⟨h.1, h.2.1, ?_⟩
  apply h.2.2.mpr
  have h4 : Real.sqrt (4 : ℝ) = 2 := by
    rw [show (4 : ℝ) = 2 ^ 2 by norm_num,
      Real.sqrt_sq (by norm_num : (0 : ℝ) ≤ 2)]
  rw [h4]
  norm_num

/-- Claim C6 (confirmed): with the waypoint active (and the player not
already exactly on it), one `Player.update` advances the player by
exactly `speed` along the heading toward the waypoint — the new position
is exactly the old one plus `speed` times the unit vector toward the
waypoint, so the displacement has magnitude `speed` — and deactivates
the waypoint if and only if the remaining distance after the move is
strictly less than `speed`; with the waypoint inactive the movement step
is a no-op; and in the concrete instance (player `(0,0)`, speed 5,
waypoint `(3,0)`) the player ends at `(5,0)`, within `speed` of the
waypoint, with the waypoint deactivated. -/
theorem player_waypoint_motion (hx hy hsize speed : ℝ) (g : GameS)
    (s : PlayerS) (hact : s.wActive = true)
    (hne : ¬(s.px = s.wx ∧ s.py = s.wy)) (hsp : 0 ≤ speed) :
    (playerUpdate hx hy hsize speed g s).2.px =
      s.px + speed * ((s.wx - s.px) /
        Real.sqrt ((s.wx - s.px) ^ 2 + (s.wy - s.py) ^ 2)) ∧
    (playerUpdate hx hy hsize speed g s).2.py =
      s.py + speed * ((s.wy - s.py) /
        Real.sqrt ((s.wx - s.px) ^ 2 + (s.wy - s.py) ^ 2)) ∧
    Real.sqrt (((playerUpdate hx hy hsize speed g s).2.px - s.px) ^ 2 +
      ((playerUpdate hx hy hsize speed g s).2.py - s.py) ^ 2) = speed ∧
    ((playerUpdate hx hy hsize speed g s).2.wActive = false ↔
      Real.sqrt ((s.wx - (playerUpdate hx hy hsize speed g s).2.px) ^ 2 +
        (s.wy - (playerUpdate hx hy hsize speed g s).2.py) ^ 2) < speed) ∧
    (∀ t : PlayerS, t.wActive = false → playerMove speed t = t) ∧
    ((playerMove 5 ⟨0, 0, 3, 0, true⟩ : PlayerS).px = 5 ∧
     (playerMove 5 ⟨0, 0, 3, 0, true⟩ : PlayerS).py = 0 ∧
     Real.sqrt (((3 : ℝ) - 5) ^ 2 + ((0 : ℝ) - 0) ^ 2) < 5 ∧
     (playerMove 5 ⟨0, 0, 3, 0, true⟩ : PlayerS).wActive = false) := by
  have hmv : (playerUpdate hx hy hsize speed g s).2 = playerMove speed s := rfl
  have h := playerMove_active speed s hact
  refine ⟨?_, ?_, ?_, ?_, fun t ht => playerMove_inactive speed t ht, ?_⟩
  · rw [hmv, h.1, turtleTowardsStep_eq s.px s.py s.wx s.wy speed hne]
  · rw [hmv, h.2.1, turtleTowardsStep_eq s.px s.py s.wx s.wy speed hne]
  · rw [hmv, h.1, h.2.1]
    exact turtleTowardsStep_dist s.px s.py s.wx s.wy speed hne hsp
  · rw [hmv, h.1, h.2.1]
    exact h.2.2
  · have hp := playerMove_inst_parts
    refine ⟨hp.1, hp.2.1, ?_, hp.2.2⟩
    rw [show (((3 : ℝ) - 5) ^ 2 + ((0 : ℝ) - 0) ^ 2) = 2 ^ 2 by norm_num,
      Real.sqrt_sq (by norm_num : (0 : ℝ) ≤ 2)]
    norm_num

/-- Witness for C6 at the concrete §-instance inputs. -/
theorem player_waypoint_motion_witness :
    Real.sqrt
      (((playerUpdate 100 100 20 5 ⟨true, []⟩ ⟨0, 0, 3, 0, true⟩).2.px - 0) ^ 2 +
       ((playerUpdate 100 100 20 5 ⟨true, []⟩ ⟨0, 0, 3, 0, true⟩).2.py - 0) ^ 2) =
      5 ∧
    (playerMove 5 ⟨0, 0, 3, 0, true⟩ : PlayerS).wActive = false := by
  have h := player_waypoint_motion 100 100 20 5 ⟨true, []⟩ ⟨0, 0, 3, 0, true⟩
    rfl (by norm_num) (by norm_num)
  exact ⟨h.2.2.1, h.2.2.2.2.2.2.2.2⟩

theorem turtleStep_inst_ten : turtleTowardsStep 0 0 10 0 5 = (5, 0) := by
  rw [turtleTowardsStep_eq 0 0 10 0 5 (by norm_num)]
  rw [show (((10 : ℝ) - 0) ^ 2 + ((0 : ℝ) - 0) ^ 2) = 10 ^ 2 by norm_num,
    Real.sqrt_sq (by norm_num : (0 : ℝ) ≤ 10)]
  norm_num

/-- Claim C2, counterexample: Home at the origin (size 20) contains the
Player at `(0,0)`; with the Waypoint active at `(10,0)` and speed 5, one
`Player.update` triggers the win transition but still moves the Player
from `x = 0` to `x = 5` — the position is not unchanged. -/
theorem playerUpdate_win_still_moves :
    (playerUpdate 0 0 20 5 ⟨true, []⟩ ⟨0, 0, 10, 0, true⟩).1 =
      gameOverWin ⟨true, []⟩ ∧
    (playerUpdate 0 0 20 5 ⟨true, []⟩ ⟨0, 0, 10, 0, true⟩).2.px = 5 ∧
    (5 : ℝ) ≠ (⟨0, 0, 10, 0, true⟩ : PlayerS).px := by
  have hc : homeContainsR 0 0 20 (PlayerS.px ⟨0, 0, 10, 0, true⟩)
      (PlayerS.py ⟨0, 0, 10, 0, true⟩) :=
    ⟨by norm_num, by norm_num, by norm_num, by norm_num⟩
  refine ⟨?_, ?_, by norm_num⟩
  · simp only [playerUpdate]
    rw [if_pos hc]
  · have h := playerMove_active 5 ⟨0, 0, 10, 0, true⟩ rfl
    rw [turtleStep_inst_ten] at h
    norm_num at h
    exact h.1

/-- Claim C2 (corrected/amended): when Home contains the Player's
position, `update` transitions the session to won, but it does not
return early — the position is guaranteed unchanged by the update only
when the Waypoint is inactive (and then stays unchanged under repeated
updates). -/
theorem playerUpdate_win_contract (hx hy hsize speed : ℝ) (g : GameS)
    (s : PlayerS) (hc : homeContainsR hx hy hsize s.px s.py) :
    (playerUpdate hx hy hsize speed g s).1 = gameOverWin g ∧
    (s.wActive = false → (playerUpdate hx hy hsize speed g s).2 = s) := by
  constructor
  · simp only [playerUpdate]
    rw [if_pos hc]
  · intro h
    exact playerMove_inactive speed s h

/-- Witness for C2's amended theorem: a player resting at the home center
with an inactive waypoint wins and does not move. -/
theorem playerUpdate_win_contract_witness :
    (playerUpdate 0 0 20 5 ⟨true, []⟩ ⟨0, 0, 7, 7, false⟩).1 =
      gameOverWin ⟨true, []⟩ ∧
    (playerUpdate 0 0 20 5 ⟨true, []⟩ ⟨0, 0, 7, 7, false⟩).2 =
      (⟨0, 0, 7, 7, false⟩ : PlayerS) := by
  have h := playerUpdate_win_contract 0 0 20 5 ⟨true, []⟩ ⟨0, 0, 7, 7, false⟩
    ⟨by norm_num, by norm_num, by norm_num, by norm_num⟩
  exact ⟨h.1, h.2 rfl⟩
